import Mathlib

/-!
Shallow embedding of the sonatype-resource-automation service in Lean 4,
together with proofs checking the natural-language specification against it.

The Go source is embedded function by function:
  * `internal/service/role_engine.go`      → `SRA.RoleDecisionEngine`
  * `internal/config/config.go`            → `SRA.Config.createOpConfig`
  * `internal/config/job.go`               → `SRA.JobStore` operations
  * `internal/service/progress_tracker.go` → `SRA.setProcessing` / `SRA.finalize` / `SRA.markFailed`
  * `internal/server/handlers.go`          → `SRA.validateRequest`
  * `internal/server/sync.go`              → `SRA.aggregateResults` / `SRA.processBatch`
  * `internal/service/deletion.go`         → `SRA.cleanupRole`, `SRA.cleanupUserRoles`,
                                             `SRA.deletionRun`, `SRA.createRepository`,
                                             `SRA.createPrivilege`
Go time.Now() is threaded as an explicit Nat parameter; the external Nexus
client is modelled as a state record plus an explicit behaviour oracle that
says which outbound calls succeed.
-/

namespace SRA

/-! ## Data model (internal/config/models.go) -/

/-- RepositoryRequest from internal/config/models.go. -/
structure RepositoryRequest where
  organizationName : String
  ldapUsername : String
  packageManager : String
  shared : Bool
  appID : String
  deriving Repr, DecidableEq

/-- OperationConfig from internal/config/models.go. -/
structure OperationConfig where
  action : String
  ldapUsername : String
  organizationID : String
  remoteURL : String
  extraRoles : List String
  baseRoles : List String
  repositoryName : String
  privilegeName : String
  roleName : String
  packageManager : String
  shared : Bool
  appID : String
  deriving Repr, DecidableEq

/-- FailedRequest from internal/config/models.go. -/
structure FailedRequest where
  request : RepositoryRequest
  reason : String
  deriving Repr, DecidableEq

/-! ## Role decision engine (internal/service/role_engine.go) -/

/-- RoleDecisionEngine state (role_engine.go lines 9-13). -/
structure RoleDecisionEngine where
  baseRoles : List String
  extraRoles : List String
  afterRemoval : List String
  deriving Repr, DecidableEq

/-- The empty-string filter applied to both role lists in NewRoleDecisionEngine. -/
def filterEmptyRoles (roles : List String) : List String :=
  roles.filter (fun r => !(r == ""))

/-- NewRoleDecisionEngine (role_engine.go lines 16-37): filters empty strings
out of both configured role lists. -/
def NewRoleDecisionEngine (baseRoles extraRoles : List String) : RoleDecisionEngine :=
  { baseRoles := filterEmptyRoles baseRoles
    extraRoles := filterEmptyRoles extraRoles
    afterRemoval := [] }

/-- SetAfterRemovalRoles (role_engine.go lines 40-42). -/
def setAfterRemovalRoles (rde : RoleDecisionEngine) (roles : List String) : RoleDecisionEngine :=
  { rde with afterRemoval := roles }

/-- The loop of HasOtherRoles (role_engine.go lines 90-106): scan afterRemoval,
skipping base roles, the constant "repositories.share" and extra roles; any
remaining role makes the answer true. -/
def hasOtherRolesLoop (baseRoles extraRoles : List String) : List String → Bool
  | [] => false
  | r :: rest =>
    if baseRoles.contains r then hasOtherRolesLoop baseRoles extraRoles rest
    else if r == "repositories.share" then hasOtherRolesLoop baseRoles extraRoles rest
    else if extraRoles.contains r then hasOtherRolesLoop baseRoles extraRoles rest
    else true

/-- HasOtherRoles (role_engine.go lines 89-107). -/
def hasOtherRoles (rde : RoleDecisionEngine) : Bool :=
  hasOtherRolesLoop rde.baseRoles rde.extraRoles rde.afterRemoval

/-- First loop of DecideFinalRoles (role_engine.go lines 57-62): append each
base role to the accumulated result unless already present.  The Go code keeps
a map `finalSet` mirroring the slice `finalRoles`; here the accumulator list
plays both parts (membership in the list is membership in the set). -/
def addBaseRolesLoop : List String → List String → List String
  | [], acc => acc
  | br :: rest, acc =>
    if acc.contains br then addBaseRolesLoop rest acc
    else addBaseRolesLoop rest (acc ++ [br])

/-- Second loop of DecideFinalRoles (role_engine.go lines 65-83): walk
afterRemoval, skipping anything already added; extra roles are appended only
when `keepExtra`; anything else is appended. -/
def addAfterRemovalLoop (extraRoles : List String) (keepExtra : Bool) :
    List String → List String → List String
  | [], acc => acc
  | r :: rest, acc =>
    if acc.contains r then addAfterRemovalLoop extraRoles keepExtra rest acc
    else if extraRoles.contains r then
      if keepExtra then addAfterRemovalLoop extraRoles keepExtra rest (acc ++ [r])
      else addAfterRemovalLoop extraRoles keepExtra rest acc
    else addAfterRemovalLoop extraRoles keepExtra rest (acc ++ [r])

/-- DecideFinalRoles (role_engine.go lines 49-86). -/
def decideFinalRoles (rde : RoleDecisionEngine) : List String :=
  let keepExtra := hasOtherRoles rde
  let afterBase := addBaseRolesLoop rde.baseRoles []
  addAfterRemovalLoop rde.extraRoles keepExtra rde.afterRemoval afterBase

/-- GetRemovedExtraRoles (role_engine.go lines 110-120). -/
def getRemovedExtraRoles (rde : RoleDecisionEngine) : List String :=
  let finalRoles := decideFinalRoles rde
  rde.extraRoles.filter (fun r => !(finalRoles.contains r))

/-! ## Spec-side restatement of the role decision (spec.md §4.2)

The following definitions follow the wording of the specification, to be
compared with the source-derived `decideFinalRoles` above. -/

/-- Spec wording: "all base roles first in configured order (duplicates
skipped)" — first-occurrence de-duplication against an already-seen list. -/
def specDedupRoles (seen : List String) : List String → List String
  | [] => []
  | r :: rest =>
    if seen.contains r then specDedupRoles seen rest
    else r :: specDedupRoles (seen ++ [r]) rest

/-- Spec wording: "followed by the afterRemoval roles in their original order
with duplicates skipped, where a role belonging to extraRoles is kept only if
HasOtherRoles() is true, and every afterRemoval role that is neither a base
role nor an extra role is always kept" (a base role met here is a duplicate of
the base part, hence skipped). -/
def specAfterRolesFrom (extraRoles : List String) (keepExtra : Bool) (seen : List String) :
    List String → List String
  | [] => []
  | r :: rest =>
    if seen.contains r then specAfterRolesFrom extraRoles keepExtra seen rest
    else if extraRoles.contains r && !keepExtra then specAfterRolesFrom extraRoles keepExtra seen rest
    else r :: specAfterRolesFrom extraRoles keepExtra (seen ++ [r]) rest

/-- Final role list as the specification words it. -/
def specFinalRoles (rde : RoleDecisionEngine) : List String :=
  let basePart := specDedupRoles [] rde.baseRoles
  basePart ++ specAfterRolesFrom rde.extraRoles (hasOtherRoles rde) basePart rde.afterRemoval

lemma addBaseRolesLoop_eq_append (l : List String) :
    ∀ acc, addBaseRolesLoop l acc = acc ++ specDedupRoles acc l := by
  induction l with
  | nil => intro acc; simp [addBaseRolesLoop, specDedupRoles]
  | cons br rest ih =>
    intro acc
    by_cases h : br ∈ acc
    · simp [addBaseRolesLoop, specDedupRoles, h, ih]
    · have hc : ¬(acc.contains br = true) := by simpa using h
      have e1 : addBaseRolesLoop (br :: rest) acc = addBaseRolesLoop rest (acc ++ [br]) := by
        simp only [addBaseRolesLoop, if_neg hc]
      have e2 : specDedupRoles acc (br :: rest) = br :: specDedupRoles (acc ++ [br]) rest := by
        simp only [specDedupRoles, if_neg hc]
      rw [e1, ih, e2]
      simp

lemma addAfterRemovalLoop_eq_append (extraRoles : List String) (keepExtra : Bool)
    (l : List String) :
    ∀ acc, addAfterRemovalLoop extraRoles keepExtra l acc =
      acc ++ specAfterRolesFrom extraRoles keepExtra acc l := by
  induction l with
  | nil => intro acc; simp [addAfterRemovalLoop, specAfterRolesFrom]
  | cons r rest ih =>
    intro acc
    by_cases h : r ∈ acc
    · simp [addAfterRemovalLoop, specAfterRolesFrom, h, ih]
    · have hc : ¬(acc.contains r = true) := by simpa using h
      by_cases hx : r ∈ extraRoles
      · have hcx : extraRoles.contains r = true := by simpa using hx
        by_cases hk : keepExtra = true
        · subst hk
          have e1 : addAfterRemovalLoop extraRoles true (r :: rest) acc =
              addAfterRemovalLoop extraRoles true rest (acc ++ [r]) := by
            simp only [addAfterRemovalLoop, if_neg hc, if_pos hcx, if_pos rfl]
            simp
          have e2 : specAfterRolesFrom extraRoles true acc (r :: rest) =
              r :: specAfterRolesFrom extraRoles true (acc ++ [r]) rest := by
            simp only [specAfterRolesFrom, if_neg hc]
            simp
          rw [e1, ih, e2]
          simp
        · have hk' : keepExtra = false := by simpa using hk
          subst hk'
          simp [addAfterRemovalLoop, specAfterRolesFrom, h, hx, ih]
      · have hcx : ¬(extraRoles.contains r = true) := by simpa using hx
        have e1 : addAfterRemovalLoop extraRoles keepExtra (r :: rest) acc =
            addAfterRemovalLoop extraRoles keepExtra rest (acc ++ [r]) := by
          simp only [addAfterRemovalLoop, if_neg hc, if_neg hcx]
        have e2 : specAfterRolesFrom extraRoles keepExtra acc (r :: rest) =
            r :: specAfterRolesFrom extraRoles keepExtra (acc ++ [r]) rest := by
          simp only [specAfterRolesFrom, if_neg hc]
          simp [hx]
        rw [e1, ih, e2]
        simp


lemma hasOtherRolesLoop_iff (base extra : List String) (l : List String) :
    hasOtherRolesLoop base extra l = true ↔
      ∃ r, r ∈ l ∧ r ∉ base ∧ r ≠ "repositories.share" ∧ r ∉ extra := by
  induction l with
  | nil => simp [hasOtherRolesLoop]
  | cons r rest ih =>
    simp only [hasOtherRolesLoop]
    by_cases hb : r ∈ base
    · simp only [List.elem_iff, if_pos hb, ih]
      constructor
      · rintro ⟨x, hx, h1, h2, h3⟩; exact ⟨x, List.mem_cons_of_mem r hx, h1, h2, h3⟩
      · rintro ⟨x, hx, h1, h2, h3⟩
        rcases List.mem_cons.mp hx with rfl | hx'
        · exact absurd hb h1
        · exact ⟨x, hx', h1, h2, h3⟩
    · have hb' : ¬(base.contains r = true) := by simpa using hb
      rw [if_neg hb']
      by_cases hs : r = "repositories.share"
      · simp only [hs, beq_self_eq_true, if_pos, ih]
        constructor
        · rintro ⟨x, hx, h1, h2, h3⟩; exact ⟨x, List.mem_cons_of_mem _ hx, h1, h2, h3⟩
        · rintro ⟨x, hx, h1, h2, h3⟩
          rcases List.mem_cons.mp hx with rfl | hx'
          · exact absurd rfl h2
          · exact ⟨x, hx', h1, h2, h3⟩
      · have hs' : ¬((r == "repositories.share") = true) := by simpa using hs
        rw [if_neg hs']
        by_cases hx : r ∈ extra
        · simp only [List.elem_iff, if_pos hx, ih]
          constructor
          · rintro ⟨x, hxx, h1, h2, h3⟩; exact ⟨x, List.mem_cons_of_mem _ hxx, h1, h2, h3⟩
          · rintro ⟨x, hxx, h1, h2, h3⟩
            rcases List.mem_cons.mp hxx with rfl | hx'
            · exact absurd hx h3
            · exact ⟨x, hx', h1, h2, h3⟩
        · have hx' : ¬(extra.contains r = true) := by simpa using hx
          rw [if_neg hx']
          simp only [true_iff]
          exact ⟨r, List.mem_cons_self r rest, hb, hs, hx⟩

/-- C3: HasOtherRoles() returns true if and only if afterRemoval contains at
least one role that is not a base role, not the fixed shared-role constant
"repositories.share", and not an extra role. -/
theorem hasOtherRoles_iff_project_role (rde : RoleDecisionEngine) :
    hasOtherRoles rde = true ↔
      ∃ r, r ∈ rde.afterRemoval ∧ r ∉ rde.baseRoles ∧
        r ≠ "repositories.share" ∧ r ∉ rde.extraRoles :=
  hasOtherRolesLoop_iff rde.baseRoles rde.extraRoles rde.afterRemoval

/-- C2: DecideFinalRoles returns exactly the base roles first in configured
order with duplicates skipped, then the afterRemoval roles in original order
with duplicates skipped, an extra role being kept only when HasOtherRoles() is
true and every role that is neither base nor extra always kept — i.e. the
source-derived function agrees with the specification-worded `specFinalRoles`
on every engine state built from baseRoles, extraRoles and afterRemoval. -/
theorem decideFinalRoles_eq_specFinalRoles (baseRoles extraRoles afterRemoval : List String) :
    decideFinalRoles (setAfterRemovalRoles (NewRoleDecisionEngine baseRoles extraRoles) afterRemoval) =
      specFinalRoles (setAfterRemovalRoles (NewRoleDecisionEngine baseRoles extraRoles) afterRemoval) := by
  unfold decideFinalRoles specFinalRoles
  rw [addBaseRolesLoop_eq_append, addAfterRemovalLoop_eq_append]
  simp


/-! ## Operation config resolver (internal/config/config.go) -/

/-- Model of Go strings.ToLower as used on package-manager names
(config.go line 178): character-wise lowercasing. -/
def goToLower (s : String) : String := ⟨s.data.map Char.toLower⟩

/-- PackageManager static config (internal/config/models.go lines 57-64).
Only the string fields are embedded; the map-valued fields (DefaultConfig,
APIEndpoint.FormatSpecificConfig) are wire-level payload never read by the
resolver or the workflows under proof. -/
structure PackageManager where
  defaultURL : String
  privilegeFormat : String
  deriving Repr, DecidableEq

/-- Application config (config.go lines 58-72), restricted to the fields read
by CreateOpConfig.  Go maps are modelled as association lists. -/
structure Config where
  baseRoles : List String
  extraRoles : List String
  orgs : List (String × String)
  packageManagers : List (String × PackageManager)
  deriving Repr, DecidableEq

/-- CreateOpConfig (config.go lines 159-198).  Note the Go struct literal at
lines 186-197 omits the Shared and AppID fields, so Go zero-initializes them
to false and "". -/
def Config.createOpConfig (c : Config) (r : RepositoryRequest) (action : String) :
    Except String OperationConfig :=
  match c.orgs.lookup r.organizationName with
  | none => .error ("organization '" ++ r.organizationName ++ "' not found")
  | some orgID =>
    match c.packageManagers.lookup r.packageManager with
    | none => .error ("package manager '" ++ r.packageManager ++ "' not found")
    | some manager =>
      let remoteURL := manager.defaultURL
      let suffix := if r.shared then "shared" else r.appID
      let repoName := goToLower r.packageManager ++ "-release-" ++ suffix
      let roleName := if r.shared then "repositories.share" else r.ldapUsername
      .ok { action := action
            ldapUsername := r.ldapUsername
            organizationID := orgID
            remoteURL := remoteURL
            extraRoles := c.extraRoles
            baseRoles := c.baseRoles
            repositoryName := repoName
            privilegeName := repoName
            roleName := roleName
            packageManager := r.packageManager
            shared := false
            appID := "" }

/-- C8: every resolved operation has repositoryName (and the identical
privilegeName) equal to lowercase(packageManager) ++ "-release-" ++ ("shared"
when shared, else appID), and roleName equal to ldapUsername unless shared, in
which case the fixed constant "repositories.share". -/
theorem createOpConfig_naming (c : Config) (r : RepositoryRequest) (action : String)
    (opc : OperationConfig) (h : c.createOpConfig r action = .ok opc) :
    opc.repositoryName =
        goToLower r.packageManager ++ "-release-" ++ (if r.shared then "shared" else r.appID) ∧
    opc.privilegeName = opc.repositoryName ∧
    opc.roleName = (if r.shared then "repositories.share" else r.ldapUsername) := by
  unfold Config.createOpConfig at h
  rcases ho : c.orgs.lookup r.organizationName with _ | orgID
  · rw [ho] at h; cases h
  · rw [ho] at h
    rcases hp : c.packageManagers.lookup r.packageManager with _ | manager
    · rw [hp] at h; cases h
    · rw [hp] at h
      cases h
      simp

/-- Concrete static config used to instantiate the resolver theorems. -/
def sampleConfig : Config :=
  { baseRoles := ["base-role"]
    extraRoles := ["extra-role"]
    orgs := [("org1", "org-id-1")]
    packageManagers := [("npm", { defaultURL := "https://registry.npmjs.org", privilegeFormat := "npm" })] }

/-- Witness for the naming theorem: a concrete non-shared create request. -/
theorem createOpConfig_naming_witness :
    sampleConfig.createOpConfig
        { organizationName := "org1", ldapUsername := "user1",
          packageManager := "npm", shared := false, appID := "app1" } "create" =
      .ok { action := "create", ldapUsername := "user1", organizationID := "org-id-1",
            remoteURL := "https://registry.npmjs.org", extraRoles := ["extra-role"],
            baseRoles := ["base-role"], repositoryName := "npm-release-app1",
            privilegeName := "npm-release-app1", roleName := "user1",
            packageManager := "npm", shared := false, appID := "" } ∧
    ("npm-release-app1" =
        goToLower "npm" ++ "-release-" ++ (if (false : Bool) then "shared" else "app1") ∧
      "npm-release-app1" = "npm-release-app1" ∧
      "user1" = (if (false : Bool) then "repositories.share" else "user1")) := by
  refine ⟨by rfl, ?_⟩
  have h := createOpConfig_naming sampleConfig
    { organizationName := "org1", ldapUsername := "user1",
      packageManager := "npm", shared := false, appID := "app1" } "create"
    { action := "create", ldapUsername := "user1", organizationID := "org-id-1",
      remoteURL := "https://registry.npmjs.org", extraRoles := ["extra-role"],
      baseRoles := ["base-role"], repositoryName := "npm-release-app1",
      privilegeName := "npm-release-app1", roleName := "user1",
      packageManager := "npm", shared := false, appID := "" } (by rfl)
  simpa using h

/-- C4 (refuted by the code): CreateOpConfig does not copy the request's
Shared flag and AppID into the returned OperationConfig.  At a shared delete
request with appID "app-9" the resolver succeeds yet returns shared = false
and appID = "", contradicting the claim that the returned descriptor's shared
and appID equal the request's. -/
theorem createOpConfig_drops_shared_appID :
    ({ organizationName := "org1", ldapUsername := "user1",
       packageManager := "npm", shared := true, appID := "app-9" } : RepositoryRequest).shared = true ∧
    ({ organizationName := "org1", ldapUsername := "user1",
       packageManager := "npm", shared := true, appID := "app-9" } : RepositoryRequest).appID = "app-9" ∧
    sampleConfig.createOpConfig
        { organizationName := "org1", ldapUsername := "user1",
          packageManager := "npm", shared := true, appID := "app-9" } "delete" =
      .ok { action := "delete", ldapUsername := "user1", organizationID := "org-id-1",
            remoteURL := "https://registry.npmjs.org", extraRoles := ["extra-role"],
            baseRoles := ["base-role"], repositoryName := "npm-release-shared",
            privilegeName := "npm-release-shared", roleName := "repositories.share",
            packageManager := "npm", shared := false, appID := "" } := by
  exact ⟨rfl, rfl, by rfl⟩


/-! ## Job store (internal/config/job.go) -/

/-- JobStatus (job.go lines 11-18). -/
inductive JobStatus
  | pending
  | processing
  | completed
  | failed
  deriving Repr, DecidableEq

/-- Job record (job.go lines 21-44).  Timestamps are abstract Nat instants;
Go time.Now() is threaded as an explicit `now` argument below. -/
structure Job where
  id : String
  status : JobStatus
  action : String
  createdAt : Nat
  updatedAt : Nat
  totalRequests : Nat
  successfulOperations : Nat
  failedOperations : Nat
  notProcessedOperations : Nat
  failedRequests : List FailedRequest
  message : String
  deriving Repr, DecidableEq

/-- The in-memory job map (job.go lines 47-50), modelled as an association
list where insertion conses in front and lookup takes the most recent entry —
observationally the Go map assignment. -/
abbrev JobStore := List (String × Job)

/-- GetJob (job.go lines 82-87). -/
def JobStore.getJob (js : JobStore) (id : String) : Option Job :=
  js.lookup id

/-- CreateJob (job.go lines 60-79). -/
def JobStore.createJob (js : JobStore) (id action : String) (totalRequests : Nat) (now : Nat) :
    JobStore × Job :=
  let job : Job :=
    { id := id
      status := .pending
      action := action
      createdAt := now
      updatedAt := now
      totalRequests := totalRequests
      successfulOperations := 0
      failedOperations := 0
      notProcessedOperations := totalRequests
      failedRequests := []
      message := "Job queued" }
  ((id, job) :: js, job)

/-- UpdateJob (job.go lines 90-101): apply the mutator under lock, refresh
updatedAt, NotFound error when the id is absent. -/
def JobStore.updateJob (js : JobStore) (id : String) (updateFn : Job → Job) (now : Nat) :
    Except String JobStore :=
  match js.lookup id with
  | none => .error ("job " ++ id ++ " not found")
  | some job => .ok ((id, { updateFn job with updatedAt := now }) :: js)

/-! ## Job progress tracker (internal/service/progress_tracker.go) -/

/-- The tracker methods discard UpdateJob's error (the Go `_ =` assignments in
progress_tracker.go lines 28, 36 and 64): a missing job leaves the store
untouched. -/
def updateJobIgnoringError (js : JobStore) (id : String) (f : Job → Job) (now : Nat) : JobStore :=
  match js.updateJob id f now with
  | .ok js' => js'
  | .error _ => js

/-- SetProcessing (progress_tracker.go lines 27-32). -/
def setProcessing (js : JobStore) (jobID : String) (now : Nat) : JobStore :=
  updateJobIgnoringError js jobID
    (fun job => { job with status := .processing, message := "Processing requests" }) now

/-- Finalize (progress_tracker.go lines 35-60). -/
def finalize (js : JobStore) (jobID : String)
    (successful failed notProcessed total : Nat)
    (failedRequests : List FailedRequest) (now : Nat) : JobStore :=
  updateJobIgnoringError js jobID
    (fun job =>
      let job :=
        { job with
          successfulOperations := successful
          failedOperations := failed
          notProcessedOperations := notProcessed
          failedRequests := failedRequests }
      if failed = 0 then
        { job with
          status := .completed
          message := "Successfully processed all " ++ toString successful ++ " requests" }
      else if successful = 0 then
        { job with
          status := .failed
          message := "All " ++ toString failed ++ " requests failed" }
      else
        { job with
          status := .completed
          message := "Processed " ++ toString successful ++ " of " ++ toString total ++
            " requests with " ++ toString failed ++ " errors" }) now

/-- MarkFailed (progress_tracker.go lines 63-75). -/
def markFailed (js : JobStore) (jobID : String) (totalRequests : Nat) (now : Nat) : JobStore :=
  updateJobIgnoringError js jobID
    (fun job =>
      { job with
        status := .failed
        totalRequests := totalRequests
        failedOperations := totalRequests
        notProcessedOperations := 0
        message := "All " ++ toString totalRequests ++ " requests failed" }) now

/-! ## Batch fan-out / fan-in (internal/server/sync.go) -/

/-- operationResult (sync.go lines 26-29). -/
structure OperationResult where
  success : Bool
  error : String
  deriving Repr, DecidableEq

/-- One step of the fan-in aggregation loop (sync.go lines 98-108). -/
def aggStep (acc : Nat × Nat × List FailedRequest)
    (res : RepositoryRequest × OperationResult) : Nat × Nat × List FailedRequest :=
  if res.2.success then (acc.1 + 1, acc.2.1, acc.2.2)
  else (acc.1, acc.2.1 + 1, acc.2.2 ++ [{ request := res.1, reason := res.2.error }])

/-- The fan-in aggregation (sync.go lines 94-108): count successes and
failures and collect one FailedRequest per failure. -/
def aggregateResults (results : List (RepositoryRequest × OperationResult)) :
    Nat × Nat × List FailedRequest :=
  results.foldl aggStep (0, 0, [])

/-- The FailedRequest records of a result list, in order. -/
def failedList (results : List (RepositoryRequest × OperationResult)) : List FailedRequest :=
  (results.filter (fun res => !res.2.success)).map
    (fun res => { request := res.1, reason := res.2.error })

/-- ProcessBatchAsync's job lifecycle (sync.go lines 38-118) for one batch of
valid requests: create the job sized by the valid-request count, mark it
processing, run one worker per request (each worker's outcome abstracted as a
function of the request — attemptOperation is I/O), aggregate, finalize with
notProcessed = 0 and total = the number of valid requests.  The Go results
channel delivers worker results in scheduling order; the aggregate counts and
the set of failure records do not depend on that order, which the model fixes
to request order. -/
def processBatch (js : JobStore) (jobID action : String)
    (requests : List RepositoryRequest) (outcome : RepositoryRequest → OperationResult)
    (t0 t1 t2 : Nat) : JobStore :=
  let js1 := (js.createJob jobID action requests.length t0).1
  let js2 := setProcessing js1 jobID t1
  let results := requests.map (fun r => (r, outcome r))
  let agg := aggregateResults results
  finalize js2 jobID agg.1 agg.2.1 0 requests.length agg.2.2 t2

lemma aggregate_foldl_spec (results : List (RepositoryRequest × OperationResult)) :
    ∀ init, results.foldl aggStep init =
      (init.1 + results.countP (fun res => res.2.success),
       init.2.1 + results.countP (fun res => !res.2.success),
       init.2.2 ++ failedList results) := by
  induction results with
  | nil => intro init; simp [failedList]
  | cons res rest ih =>
    intro init
    cases hs : res.2.success
    · simp only [List.foldl_cons, aggStep, hs, Bool.false_eq_true, if_false, ih]
      simp [List.countP_cons, failedList, hs]
      omega
    · simp only [List.foldl_cons, aggStep, hs, if_true, ih]
      simp [List.countP_cons, failedList, hs]
      omega

lemma aggregateResults_spec (results : List (RepositoryRequest × OperationResult)) :
    aggregateResults results =
      (results.countP (fun res => res.2.success),
       results.countP (fun res => !res.2.success),
       failedList results) := by
  simpa using aggregate_foldl_spec results (0, 0, [])

lemma countP_add_countP_not (p : α → Bool) (l : List α) :
    l.countP p + l.countP (fun a => !(p a)) = l.length := by
  induction l with
  | nil => simp
  | cons a rest ih =>
    cases h : p a <;> simp [List.countP_cons, h] <;> omega


lemma failedList_length (results : List (RepositoryRequest × OperationResult)) :
    (failedList results).length = results.countP (fun res => !res.2.success) := by
  simp [failedList, List.countP_eq_length_filter]

lemma processBatch_getJob_spec (js : JobStore) (jobID action : String)
    (requests : List RepositoryRequest) (outcome : RepositoryRequest → OperationResult)
    (t0 t1 t2 : Nat) :
    ∃ j, (processBatch js jobID action requests outcome t0 t1 t2).getJob jobID = some j ∧
      (let results := requests.map (fun r => (r, outcome r))
       let s := results.countP (fun res => res.2.success)
       let f := results.countP (fun res => !res.2.success)
       j.totalRequests = requests.length ∧
       j.successfulOperations = s ∧
       j.failedOperations = f ∧
       j.notProcessedOperations = 0 ∧
       j.failedRequests = failedList results ∧
       j.status = (if f = 0 then JobStatus.completed
                   else if s = 0 then JobStatus.failed else JobStatus.completed)) := by
  simp only [processBatch, aggregateResults_spec]
  set results := requests.map (fun r => (r, outcome r)) with hres
  set s := results.countP (fun res => res.2.success) with hs
  set f := results.countP (fun res => !res.2.success) with hf
  by_cases h0 : f = 0
  · refine ⟨{ id := jobID, status := .completed, action := action, createdAt := t0,
              updatedAt := t2, totalRequests := requests.length, successfulOperations := s,
              failedOperations := f, notProcessedOperations := 0,
              failedRequests := failedList results,
              message := "Successfully processed all " ++ toString s ++ " requests" }, ?_, ?_⟩
    · simp [setProcessing, finalize, updateJobIgnoringError, JobStore.updateJob,
        JobStore.createJob, JobStore.getJob, List.lookup, h0]
    · refine ⟨rfl, rfl, rfl, rfl, rfl, ?_⟩
      simp [h0]
  · by_cases h1 : s = 0
    · refine ⟨{ id := jobID, status := .failed, action := action, createdAt := t0,
                updatedAt := t2, totalRequests := requests.length, successfulOperations := s,
                failedOperations := f, notProcessedOperations := 0,
                failedRequests := failedList results,
                message := "All " ++ toString f ++ " requests failed" }, ?_, ?_⟩
      · simp [setProcessing, finalize, updateJobIgnoringError, JobStore.updateJob,
          JobStore.createJob, JobStore.getJob, List.lookup, h0, h1]
      · refine ⟨rfl, rfl, rfl, rfl, rfl, ?_⟩
        simp [h0, h1]
    · refine ⟨{ id := jobID, status := .completed, action := action, createdAt := t0,
                updatedAt := t2, totalRequests := requests.length, successfulOperations := s,
                failedOperations := f, notProcessedOperations := 0,
                failedRequests := failedList results,
                message := "Processed " ++ toString s ++ " of " ++ toString requests.length ++
                  " requests with " ++ toString f ++ " errors" }, ?_, ?_⟩
      · simp [setProcessing, finalize, updateJobIgnoringError, JobStore.updateJob,
          JobStore.createJob, JobStore.getJob, List.lookup, h0, h1]
      · refine ⟨rfl, rfl, rfl, rfl, rfl, ?_⟩
        simp [h0, h1]

/-- C7: finalizing a batch of n ≥ 1 valid requests with s successes and f
failures yields status completed when f = 0 or when both s > 0 and f > 0, and
failed when s = 0 and f > 0; the final job carries successfulOperations = s,
failedOperations = f, notProcessedOperations = 0 and exactly one
FailedRequest record per failed request. -/
theorem batch_finalization (js : JobStore) (jobID action : String)
    (requests : List RepositoryRequest) (outcome : RepositoryRequest → OperationResult)
    (t0 t1 t2 : Nat) (hne : requests ≠ []) :
    ∃ j, (processBatch js jobID action requests outcome t0 t1 t2).getJob jobID = some j ∧
      (let results := requests.map (fun r => (r, outcome r))
       let s := results.countP (fun res => res.2.success)
       let f := results.countP (fun res => !res.2.success)
       s + f = requests.length ∧
       j.successfulOperations = s ∧
       j.failedOperations = f ∧
       j.notProcessedOperations = 0 ∧
       j.failedRequests = failedList results ∧
       j.failedRequests.length = f ∧
       ((f = 0 ∨ (0 < s ∧ 0 < f)) → j.status = .completed) ∧
       ((s = 0 ∧ 0 < f) → j.status = .failed)) := by
  have _ := hne
  obtain ⟨j, hj, hTot, hS, hF, hN, hFR, hStatus⟩ :=
    processBatch_getJob_spec js jobID action requests outcome t0 t1 t2
  refine ⟨j, hj, ?_, hS, hF, hN, hFR, ?_, ?_, ?_⟩
  · have := countP_add_countP_not (fun res => res.2.success)
      (requests.map (fun r => (r, outcome r)))
    simpa using this
  · rw [hFR, failedList_length]
  · rintro (h0 | ⟨h1, h2⟩) <;> rw [hStatus]
    · rw [if_pos h0]
    · have h0 : ¬((requests.map (fun r => (r, outcome r))).countP
          (fun res => !res.2.success) = 0) := by omega
      have h1' : ¬((requests.map (fun r => (r, outcome r))).countP
          (fun res => res.2.success) = 0) := by omega
      rw [if_neg h0, if_neg h1']
  · rintro ⟨h1, h2⟩
    rw [hStatus]
    have h0 : ¬((requests.map (fun r => (r, outcome r))).countP
        (fun res => !res.2.success) = 0) := by omega
    rw [if_neg h0, if_pos h1]

/-- Concrete batch for the finalization witness: three create requests, the
second of which fails its organization lookup. -/
def c7Requests : List RepositoryRequest :=
  [{ organizationName := "Department A", ldapUsername := "john", packageManager := "npm",
     shared := false, appID := "app-1" },
   { organizationName := "bad-org", ldapUsername := "jane", packageManager := "npm",
     shared := false, appID := "app-2" },
   { organizationName := "Department A", ldapUsername := "jim", packageManager := "npm",
     shared := false, appID := "app-3" }]

/-- Worker outcomes for the finalization witness. -/
def c7Outcome : RepositoryRequest → OperationResult := fun r =>
  if r.organizationName == "bad-org" then
    { success := false, error := "organization 'bad-org' not found" }
  else { success := true, error := "" }

/-- Witness for the finalization theorem at a concrete 3-request batch. -/
theorem batch_finalization_witness :
    c7Requests ≠ [] ∧
    ∃ j, (processBatch [] "job-1" "create" c7Requests c7Outcome 0 1 2).getJob "job-1" = some j ∧
      (let results := c7Requests.map (fun r => (r, c7Outcome r))
       let s := results.countP (fun res => res.2.success)
       let f := results.countP (fun res => !res.2.success)
       s + f = c7Requests.length ∧
       j.successfulOperations = s ∧
       j.failedOperations = f ∧
       j.notProcessedOperations = 0 ∧
       j.failedRequests = failedList results ∧
       j.failedRequests.length = f ∧
       ((f = 0 ∨ (0 < s ∧ 0 < f)) → j.status = .completed) ∧
       ((s = 0 ∧ 0 < f) → j.status = .failed)) :=
  ⟨by decide, batch_finalization [] "job-1" "create" c7Requests c7Outcome 0 1 2 (by decide)⟩


/-- The spec invariant on job counters. -/
def jobCountInvariant (j : Job) : Prop :=
  j.totalRequests = j.successfulOperations + j.failedOperations + j.notProcessedOperations

/-- C1: TotalRequests = SuccessfulOperations + FailedOperations +
NotProcessedOperations at every state observable through GetJob: right after
CreateJob, after SetProcessing, after the fan-in Finalize of a batch, and
after MarkFailed invoked on a freshly created job (its documented call site:
no operation has completed yet). -/
theorem job_totals_invariant (js : JobStore) (id action : String) (n k m : Nat)
    (requests : List RepositoryRequest) (outcome : RepositoryRequest → OperationResult)
    (t0 t1 t2 : Nat) :
    (∀ j, ((js.createJob id action n t0).1).getJob id = some j → jobCountInvariant j) ∧
    (∀ j, (setProcessing (js.createJob id action n t0).1 id t1).getJob id = some j →
      jobCountInvariant j) ∧
    (∀ j, (processBatch js id action requests outcome t0 t1 t2).getJob id = some j →
      jobCountInvariant j) ∧
    (∀ j, (markFailed (js.createJob id action k t0).1 id m t1).getJob id = some j →
      jobCountInvariant j) := by
  refine ⟨?_, ?_, ?_, ?_⟩
  · intro j h
    simp [JobStore.createJob, JobStore.getJob, List.lookup] at h
    subst h
    simp [jobCountInvariant]
  · intro j h
    simp [setProcessing, updateJobIgnoringError, JobStore.updateJob,
      JobStore.createJob, JobStore.getJob, List.lookup] at h
    subst h
    simp [jobCountInvariant]
  · intro j h
    obtain ⟨j0, hj0, hTot, hS, hF, hN, _⟩ :=
      processBatch_getJob_spec js id action requests outcome t0 t1 t2
    rw [hj0] at h
    cases h
    have hlen := countP_add_countP_not (fun res => res.2.success)
      (requests.map (fun r => (r, outcome r)))
    simp only [List.length_map] at hlen
    simp only [jobCountInvariant, hTot, hS, hF, hN]
    omega
  · intro j h
    simp [markFailed, updateJobIgnoringError, JobStore.updateJob,
      JobStore.createJob, JobStore.getJob, List.lookup] at h
    subst h
    simp [jobCountInvariant]

/-- One-request batch used by the invariant witness. -/
def c1Requests : List RepositoryRequest :=
  [{ organizationName := "Department A", ldapUsername := "john", packageManager := "npm",
     shared := false, appID := "app-1" }]

/-- All-success outcome used by the invariant witness. -/
def c1Outcome : RepositoryRequest → OperationResult := fun _ =>
  { success := true, error := "" }

/-- Expected job record right after CreateJob in the invariant witness. -/
def c1JobCreated : Job :=
  { id := "j1", status := .pending, action := "create", createdAt := 0,
    updatedAt := 0, totalRequests := 2, successfulOperations := 0,
    failedOperations := 0, notProcessedOperations := 2, failedRequests := [],
    message := "Job queued" }

/-- Expected job record after SetProcessing in the invariant witness. -/
def c1JobProcessing : Job :=
  { c1JobCreated with status := .processing, updatedAt := 1, message := "Processing requests" }

/-- Expected job record after the fan-in Finalize in the invariant witness. -/
def c1JobFinal : Job :=
  { id := "j1", status := .completed, action := "create", createdAt := 0,
    updatedAt := 2, totalRequests := 1, successfulOperations := 1,
    failedOperations := 0, notProcessedOperations := 0, failedRequests := [],
    message := "Successfully processed all 1 requests" }

/-- Expected job record after MarkFailed in the invariant witness. -/
def c1JobMarkedFailed : Job :=
  { id := "j1", status := .failed, action := "delete", createdAt := 0,
    updatedAt := 1, totalRequests := 3, successfulOperations := 0,
    failedOperations := 3, notProcessedOperations := 0, failedRequests := [],
    message := "All 3 requests failed" }

/-- Witness for the invariant theorem: each of the four observation points
evaluated on concrete inputs. -/
theorem job_totals_invariant_witness :
    ((JobStore.createJob [] "j1" "create" 2 0).1.getJob "j1" = some c1JobCreated ∧
      jobCountInvariant c1JobCreated) ∧
    ((setProcessing (JobStore.createJob [] "j1" "create" 2 0).1 "j1" 1).getJob "j1" =
        some c1JobProcessing ∧
      jobCountInvariant c1JobProcessing) ∧
    ((processBatch [] "j1" "create" c1Requests c1Outcome 0 1 2).getJob "j1" =
        some c1JobFinal ∧
      jobCountInvariant c1JobFinal) ∧
    ((markFailed (JobStore.createJob [] "j1" "delete" 3 0).1 "j1" 3 1).getJob "j1" =
        some c1JobMarkedFailed ∧
      jobCountInvariant c1JobMarkedFailed) := by
  refine ⟨⟨by rfl, ?_⟩, ⟨by rfl, ?_⟩, ⟨by rfl, ?_⟩, ⟨by rfl, ?_⟩⟩
  · exact (job_totals_invariant [] "j1" "create" 2 3 3 c1Requests c1Outcome 0 1 2).1 _ (by rfl)
  · exact (job_totals_invariant [] "j1" "create" 2 3 3 c1Requests c1Outcome 0 1 2).2.1 _ (by rfl)
  · exact (job_totals_invariant [] "j1" "create" 2 3 3 c1Requests c1Outcome 0 1 2).2.2.1 _ (by rfl)
  · exact (job_totals_invariant [] "j1" "delete" 2 3 3 c1Requests c1Outcome 0 1 2).2.2.2 _ (by rfl)


/-! ## Batch request validation (internal/server/handlers.go) -/

/-- ValidationError (internal/server/types.go lines 6-9). -/
structure ValidationError where
  request : RepositoryRequest
  reasons : List String
  deriving Repr, DecidableEq

/-- ValidationResult (internal/server/types.go lines 12-15). -/
structure ValidationResult where
  validRequests : List RepositoryRequest
  invalidRequests : List ValidationError
  deriving Repr, DecidableEq

/-- The appID/shared checks of validateBatchRequest (handlers.go lines
142-169), reached once the packageManager check passed; the final non-shared
check (lines 163-169) applies to every action. -/
def validateAppIDShared (action : String) (r : RepositoryRequest) : Option String :=
  if action == "create" then
    if r.shared && r.appID != "" then some "appid not allowed for shared repos on create"
    else if !r.shared && r.appID == "" then some "appid required for non-shared repos"
    else none
  else if action == "delete" then
    if r.shared && r.appID == "" then some "appid required for shared repos on delete (offboarding)"
    else if !r.shared && r.appID == "" then some "appid required for non-shared repos"
    else none
  else if !r.shared && r.appID == "" then some "appid required for non-shared repos"
  else none

/-- The per-request body of validateBatchRequest (handlers.go lines 120-171):
the first failing check's reason, or none when the request is accepted. -/
def validateRequest (action : String) (r : RepositoryRequest) : Option String :=
  if action == "delete" && r.shared then
    if r.packageManager != "" then some "packageManager must be empty for shared delete operations"
    else validateAppIDShared action r
  else
    if r.packageManager == "" then some "packageManager is required for this operation type"
    else validateAppIDShared action r

/-- validateBatchRequest (handlers.go lines 115-174): partition the batch into
accepted requests and per-request rejection reasons, in order. -/
def validateBatchRequest (requests : List RepositoryRequest) (action : String) :
    ValidationResult :=
  requests.foldl
    (fun acc req =>
      match validateRequest action req with
      | some reason =>
        { acc with invalidRequests := acc.invalidRequests ++ [{ request := req, reasons := [reason] }] }
      | none => { acc with validRequests := acc.validRequests ++ [req] })
    { validRequests := [], invalidRequests := [] }

/-- C6: a batch request is accepted iff packageManager is empty exactly for
delete+shared and non-empty otherwise, appID is empty for create+shared,
non-empty for delete+shared, and non-empty whenever not shared; and a
delete+shared request carrying a packageManager is rejected with a reason
that references packageManager. -/
theorem validateRequest_accepts_iff (action : String) (r : RepositoryRequest)
    (ha : action = "create" ∨ action = "delete") :
    (validateRequest action r = none ↔
      (((action = "delete" ∧ r.shared = true) → r.packageManager = "") ∧
       (¬(action = "delete" ∧ r.shared = true) → r.packageManager ≠ "") ∧
       ((action = "create" ∧ r.shared = true) → r.appID = "") ∧
       ((action = "delete" ∧ r.shared = true) → r.appID ≠ "") ∧
       (r.shared = false → r.appID ≠ ""))) ∧
    (action = "delete" → r.shared = true → r.packageManager ≠ "" →
      validateRequest action r =
        some "packageManager must be empty for shared delete operations") := by
  rcases ha with rfl | rfl <;>
    cases hs : r.shared <;>
      by_cases hp : r.packageManager = "" <;>
        by_cases hA : r.appID = "" <;>
          simp [validateRequest, validateAppIDShared, hs, hp, hA]

/-- Witness for the validation theorem: a shared delete request with a
non-empty packageManager. -/
theorem validateRequest_accepts_iff_witness :
    (("delete" : String) = "create" ∨ ("delete" : String) = "delete") ∧
    ((validateRequest "delete"
        { organizationName := "Department A", ldapUsername := "john",
          packageManager := "npm", shared := true, appID := "app-9" } = none ↔
      ((("delete" = "delete" ∧ true = true) → "npm" = "") ∧
       (¬("delete" = "delete" ∧ true = true) → "npm" ≠ "") ∧
       (("delete" = "create" ∧ true = true) → "app-9" = "") ∧
       (("delete" = "delete" ∧ true = true) → "app-9" ≠ "") ∧
       (true = false → "app-9" ≠ ""))) ∧
     ("delete" = "delete" → true = true → "npm" ≠ "" →
       validateRequest "delete"
         { organizationName := "Department A", ldapUsername := "john",
           packageManager := "npm", shared := true, appID := "app-9" } =
         some "packageManager must be empty for shared delete operations")) :=
  ⟨Or.inr rfl,
    validateRequest_accepts_iff "delete"
      { organizationName := "Department A", ldapUsername := "john",
        packageManager := "npm", shared := true, appID := "app-9" } (Or.inr rfl)⟩


/-! ## Nexus client model (internal/client/types.go, internal/client/nexus.go)

The two REST clients are external collaborators; the workflows only observe
them through the capability interfaces.  They are modelled as a state record
(the remote server's resources) plus a behaviour oracle saying which outbound
calls succeed — an individual call either fails (network/HTTP error) or takes
its documented effect on the state. -/

/-- Model of Go strings.HasSuffix (deletion.go line 266). -/
def goHasSuffix (s sfx : String) : Bool := sfx.data.isSuffixOf s.data

/-- Repository (client/types.go lines 4-11); the attributes map is wire-level
payload never read by the workflows. -/
structure NexusRepository where
  name : String
  format : String
  type : String
  url : String
  online : Bool
  deriving Repr, DecidableEq

/-- Privilege (client/types.go lines 14-21). -/
structure NexusPrivilege where
  name : String
  description : String
  actions : List String
  format : String
  repository : String
  type : String
  deriving Repr, DecidableEq

/-- Role (client/types.go lines 24-30). -/
structure NexusRole where
  id : String
  name : String
  description : String
  privileges : List String
  roles : List String
  deriving Repr, DecidableEq

/-- User (client/types.go lines 33-41). -/
structure NexusUser where
  userID : String
  firstName : String
  lastName : String
  emailAddress : String
  source : String
  status : String
  roles : List String
  deriving Repr, DecidableEq

/-- The remote Nexus server's resource state. -/
structure NexusState where
  repositories : List NexusRepository
  privileges : List NexusPrivilege
  roles : List NexusRole
  users : List NexusUser
  deriving Repr, DecidableEq

/-- Success/failure oracle for the outbound client calls of one workflow run.
Per-name oracles let independent deletions fail independently. -/
structure ClientBehavior where
  getUserOk : Bool
  updateUserOk : Bool
  getRoleOk : Bool
  deleteRoleOk : String → Bool
  deleteRepositoryOk : String → Bool
  deletePrivilegeOk : String → Bool
  listRepositoriesOk : Bool
  listPrivilegesOk : Bool
  getRepositoryErr : String → Bool
  getPrivilegeErr : String → Bool
  createRepositoryOk : Bool
  createPrivilegeOk : Bool

/-- GetUser: nil (none) when the user does not exist. -/
def getUser (st : NexusState) (username : String) : Option NexusUser :=
  st.users.find? (fun u => u.userID == username)

/-- UpdateUser: replace the stored user(s) with this userID. -/
def updateUser (st : NexusState) (u : NexusUser) : NexusState :=
  { st with users := st.users.map (fun v => if v.userID == u.userID then u else v) }

/-- GetRole: nil (none) when the role does not exist. -/
def getRole (st : NexusState) (name : String) : Option NexusRole :=
  st.roles.find? (fun r => r.name == name)

/-- State effect of a successful DeleteRole (the Nexus client treats 404 as
success, so deleting an absent role is a successful no-op). -/
def deleteRoleState (st : NexusState) (name : String) : NexusState :=
  { st with roles := st.roles.filter (fun r => !(r.name == name)) }

/-- NexusCleaner.DeleteRepositoryByName (deletion.go lines 32-43): propagate
the client error; on success the repository (if present) is gone — the client
treats 404 as success. -/
def deleteRepositoryByName (b : ClientBehavior) (st : NexusState) (name : String) :
    Except String NexusState :=
  if b.deleteRepositoryOk name then
    .ok { st with repositories := st.repositories.filter (fun r => !(r.name == name)) }
  else .error ("delete repository '" ++ name ++ "' failed")

/-- NexusCleaner.DeletePrivilegeByName (deletion.go lines 51-62). -/
def deletePrivilegeByName (b : ClientBehavior) (st : NexusState) (name : String) :
    Except String NexusState :=
  if b.deletePrivilegeOk name then
    .ok { st with privileges := st.privileges.filter (fun p => !(p.name == name)) }
  else .error ("delete privilege '" ++ name ++ "' failed")

/-- NexusCleaner.CleanupRole (deletion.go lines 65-97): absent role is a
no-op; a role with zero privileges is deleted; a role that still has
privileges is skipped. -/
def cleanupRole (opc : OperationConfig) (b : ClientBehavior) (st : NexusState) :
    Except String NexusState :=
  if !b.getRoleOk then
    .error ("cleanup role '" ++ opc.roleName ++ "': get role failed")
  else
    match getRole st opc.roleName with
    | none => .ok st
    | some role =>
      if role.privileges.length = 0 then
        if b.deleteRoleOk opc.roleName then .ok (deleteRoleState st opc.roleName)
        else .error ("cleanup role '" ++ opc.roleName ++ "': delete empty role failed")
      else .ok st

/-- NexusCleaner.ForceDeleteRole (deletion.go lines 100-113): delete the role,
treating 404 as success (an absent role deletes successfully in the model). -/
def forceDeleteRole (b : ClientBehavior) (st : NexusState) (roleName : String) :
    Except String NexusState :=
  if b.deleteRoleOk roleName then .ok (deleteRoleState st roleName)
  else .error ("force delete role '" ++ roleName ++ "' failed")

/-- The offboarding caller logs and continues when ForceDeleteRole fails
(deletion.go lines 248-252). -/
def forceDeleteRoleBestEffort (b : ClientBehavior) (st : NexusState) (roleName : String) :
    NexusState :=
  match forceDeleteRole b st roleName with
  | .ok st' => st'
  | .error _ => st

/-- NexusCleaner.DisableUserAndResetRoles (deletion.go lines 116-138): roles
reset to BaseRoles only, status set to disabled. -/
def disableUserAndResetRoles (opc : OperationConfig) (b : ClientBehavior) (st : NexusState) :
    Except String NexusState :=
  if !b.getUserOk then
    .error ("disable user '" ++ opc.ldapUsername ++ "': get user failed")
  else
    match getUser st opc.ldapUsername with
    | none => .error ("user '" ++ opc.ldapUsername ++ "' not found")
    | some user =>
      if b.updateUserOk then
        .ok (updateUser st { user with roles := opc.baseRoles, status := "disabled" })
      else .error ("disable user '" ++ opc.ldapUsername ++ "': update failed")

/-- The Go in-place removal of the first occurrence of the target role
(deletion.go lines 176-182, with break). -/
def removeFirstRole : List String → String → List String
  | [], _ => []
  | r :: rest, target => if r == target then rest else r :: removeFirstRole rest target

/-- NexusCleaner.CleanupUserRoles (deletion.go lines 141-216): absent user is
a warn-and-no-op; the target role is removed from the user's list only when it
does not exist or has zero privileges; the RoleDecisionEngine then computes
the final roles, which are persisted. -/
def cleanupUserRoles (opc : OperationConfig) (b : ClientBehavior) (st : NexusState) :
    Except String NexusState :=
  if !b.getUserOk then
    .error ("cleanup user roles for '" ++ opc.ldapUsername ++ "': get user failed")
  else
    match getUser st opc.ldapUsername with
    | none => .ok st
    | some user =>
      let rolesStep : Except String (List String) :=
        if opc.roleName != "" then
          if !b.getRoleOk then
            .error ("cleanup user roles for '" ++ opc.ldapUsername ++ "': get role '" ++
              opc.roleName ++ "' failed")
          else
            let canRemove :=
              match getRole st opc.roleName with
              | some roleInfo => !(roleInfo.privileges.length > 0)
              | none => true
            if canRemove then .ok (removeFirstRole user.roles opc.roleName)
            else .ok user.roles
        else .ok user.roles
      match rolesStep with
      | .error e => .error e
      | .ok roles =>
        let roleEngine := setAfterRemovalRoles (NewRoleDecisionEngine opc.baseRoles opc.extraRoles) roles
        let finalRoles := decideFinalRoles roleEngine
        if b.updateUserOk then .ok (updateUser st { user with roles := finalRoles })
        else .error ("cleanup user roles for '" ++ opc.ldapUsername ++ "': update user failed")

/-- One iteration of the offboarding repository sweep (deletion.go lines
265-272): delete the repository when its name ends in the suffix, log and
continue on failure. -/
def sweepRepoStep (b : ClientBehavior) (sfx : String) (s : NexusState)
    (repo : NexusRepository) : NexusState :=
  if goHasSuffix repo.name sfx then
    match deleteRepositoryByName b s repo.name with
    | .ok s' => s'
    | .error _ => s
  else s

/-- The offboarding repository sweep over the fetched repository list. -/
def sweepRepositories (b : ClientBehavior) (sfx : String)
    (toProcess : List NexusRepository) (st : NexusState) : NexusState :=
  toProcess.foldl (sweepRepoStep b sfx) st

/-- One iteration of the offboarding privilege sweep (deletion.go lines
281-288). -/
def sweepPrivStep (b : ClientBehavior) (sfx : String) (s : NexusState)
    (priv : NexusPrivilege) : NexusState :=
  if goHasSuffix priv.name sfx then
    match deletePrivilegeByName b s priv.name with
    | .ok s' => s'
    | .error _ => s
  else s

/-- The offboarding privilege sweep over the fetched privilege list. -/
def sweepPrivileges (b : ClientBehavior) (sfx : String)
    (toProcess : List NexusPrivilege) (st : NexusState) : NexusState :=
  toProcess.foldl (sweepPrivStep b sfx) st

/-- DeletionManager.Run (deletion.go lines 235-325).  The result's optional
tag is the "mode" entry of the returned map (some "offboarding" in
offboarding mode, absent otherwise). -/
def deletionRun (opc : OperationConfig) (b : ClientBehavior) (st : NexusState) :
    Except String (NexusState × Option String) :=
  if opc.shared && opc.appID != "" then
    match disableUserAndResetRoles opc b st with
    | .error e => .error e
    | .ok st1 =>
      let st2 := forceDeleteRoleBestEffort b st1 opc.ldapUsername
      if !b.listRepositoriesOk then .error "offboarding: failed to list repositories"
      else
        let sfx := "-release-" ++ opc.appID
        let st3 := sweepRepositories b sfx st2.repositories st2
        if !b.listPrivilegesOk then .error "offboarding: failed to list privileges"
        else
          let st4 := sweepPrivileges b sfx st3.privileges st3
          .ok (st4, some "offboarding")
  else if opc.roleName == "repositories.share" then
    match cleanupUserRoles opc b st with
    | .error e => .error e
    | .ok st' => .ok (st', none)
  else
    match deleteRepositoryByName b st opc.repositoryName with
    | .error e => .error e
    | .ok st1 =>
      match deletePrivilegeByName b st1 opc.privilegeName with
      | .error e => .error e
      | .ok st2 =>
        match cleanupRole opc b st2 with
        | .error e => .error e
        | .ok st3 =>
          match cleanupUserRoles opc b st3 with
          | .error e => .error e
          | .ok st4 => .ok (st4, none)


lemma sweepRepoStep_preserves (b : ClientBehavior) (sfx : String) (s : NexusState)
    (repo : NexusRepository) :
    (sweepRepoStep b sfx s repo).privileges = s.privileges ∧
    (sweepRepoStep b sfx s repo).users = s.users ∧
    (sweepRepoStep b sfx s repo).roles = s.roles := by
  unfold sweepRepoStep deleteRepositoryByName
  by_cases h1 : goHasSuffix repo.name sfx = true <;>
    by_cases h2 : b.deleteRepositoryOk repo.name = true <;>
      simp [h1, h2]

lemma sweepRepoStep_repositories (b : ClientBehavior) (sfx : String) (s : NexusState)
    (repo : NexusRepository) :
    (sweepRepoStep b sfx s repo).repositories =
      if goHasSuffix repo.name sfx && b.deleteRepositoryOk repo.name then
        s.repositories.filter (fun x => !(x.name == repo.name))
      else s.repositories := by
  unfold sweepRepoStep deleteRepositoryByName
  by_cases h1 : goHasSuffix repo.name sfx = true <;>
    by_cases h2 : b.deleteRepositoryOk repo.name = true <;>
      simp [h1, h2]

lemma sweepRepositories_preserves (b : ClientBehavior) (sfx : String)
    (l : List NexusRepository) :
    ∀ st : NexusState, (sweepRepositories b sfx l st).privileges = st.privileges ∧
      (sweepRepositories b sfx l st).users = st.users ∧
      (sweepRepositories b sfx l st).roles = st.roles := by
  induction l with
  | nil => intro st; exact ⟨rfl, rfl, rfl⟩
  | cons repo rest ih =>
    intro st
    have hstep := sweepRepoStep_preserves b sfx st repo
    have hrest := ih (sweepRepoStep b sfx st repo)
    have hfold : sweepRepositories b sfx (repo :: rest) st =
        sweepRepositories b sfx rest (sweepRepoStep b sfx st repo) := rfl
    rw [hfold]
    exact ⟨hrest.1.trans hstep.1, hrest.2.1.trans hstep.2.1, hrest.2.2.trans hstep.2.2⟩

lemma sweepRepositories_repositories (b : ClientBehavior) (sfx : String)
    (l : List NexusRepository) :
    ∀ st : NexusState, (sweepRepositories b sfx l st).repositories =
      st.repositories.filter (fun x =>
        !((l.map (fun r => r.name)).contains x.name &&
          (goHasSuffix x.name sfx && b.deleteRepositoryOk x.name))) := by
  induction l with
  | nil => intro st; simp [sweepRepositories]
  | cons repo rest ih =>
    intro st
    have hfold : sweepRepositories b sfx (repo :: rest) st =
        sweepRepositories b sfx rest (sweepRepoStep b sfx st repo) := rfl
    rw [hfold, ih, sweepRepoStep_repositories]
    cases hg : goHasSuffix repo.name sfx <;> cases ho : b.deleteRepositoryOk repo.name <;>
      simp only [Bool.false_and, Bool.and_false, Bool.true_and, Bool.and_true,
        Bool.false_eq_true, if_false, if_true]
    case false.false =>
      apply List.filter_congr
      intro x hx
      by_cases hxname : x.name = repo.name <;>
        simp [hxname, hg, ho, List.contains_cons]
    case false.true =>
      apply List.filter_congr
      intro x hx
      by_cases hxname : x.name = repo.name <;>
        simp [hxname, hg, ho, List.contains_cons]
    case true.false =>
      apply List.filter_congr
      intro x hx
      by_cases hxname : x.name = repo.name <;>
        simp [hxname, hg, ho, List.contains_cons]
    case true.true =>
      rw [List.filter_filter]
      apply List.filter_congr
      intro x hx
      by_cases hxname : x.name = repo.name <;>
        simp [hxname, hg, ho, List.contains_cons]

lemma sweepPrivStep_preserves (b : ClientBehavior) (sfx : String) (s : NexusState)
    (priv : NexusPrivilege) :
    (sweepPrivStep b sfx s priv).repositories = s.repositories ∧
    (sweepPrivStep b sfx s priv).users = s.users ∧
    (sweepPrivStep b sfx s priv).roles = s.roles := by
  unfold sweepPrivStep deletePrivilegeByName
  by_cases h1 : goHasSuffix priv.name sfx = true <;>
    by_cases h2 : b.deletePrivilegeOk priv.name = true <;>
      simp [h1, h2]

lemma sweepPrivStep_privileges (b : ClientBehavior) (sfx : String) (s : NexusState)
    (priv : NexusPrivilege) :
    (sweepPrivStep b sfx s priv).privileges =
      if goHasSuffix priv.name sfx && b.deletePrivilegeOk priv.name then
        s.privileges.filter (fun x => !(x.name == priv.name))
      else s.privileges := by
  unfold sweepPrivStep deletePrivilegeByName
  by_cases h1 : goHasSuffix priv.name sfx = true <;>
    by_cases h2 : b.deletePrivilegeOk priv.name = true <;>
      simp [h1, h2]

lemma sweepPrivileges_preserves (b : ClientBehavior) (sfx : String)
    (l : List NexusPrivilege) :
    ∀ st : NexusState, (sweepPrivileges b sfx l st).repositories = st.repositories ∧
      (sweepPrivileges b sfx l st).users = st.users ∧
      (sweepPrivileges b sfx l st).roles = st.roles := by
  induction l with
  | nil => intro st; exact ⟨rfl, rfl, rfl⟩
  | cons priv rest ih =>
    intro st
    have hstep := sweepPrivStep_preserves b sfx st priv
    have hrest := ih (sweepPrivStep b sfx st priv)
    have hfold : sweepPrivileges b sfx (priv :: rest) st =
        sweepPrivileges b sfx rest (sweepPrivStep b sfx st priv) := rfl
    rw [hfold]
    exact ⟨hrest.1.trans hstep.1, hrest.2.1.trans hstep.2.1, hrest.2.2.trans hstep.2.2⟩

lemma sweepPrivileges_privileges (b : ClientBehavior) (sfx : String)
    (l : List NexusPrivilege) :
    ∀ st : NexusState, (sweepPrivileges b sfx l st).privileges =
      st.privileges.filter (fun x =>
        !((l.map (fun p => p.name)).contains x.name &&
          (goHasSuffix x.name sfx && b.deletePrivilegeOk x.name))) := by
  induction l with
  | nil => intro st; simp [sweepPrivileges]
  | cons priv rest ih =>
    intro st
    have hfold : sweepPrivileges b sfx (priv :: rest) st =
        sweepPrivileges b sfx rest (sweepPrivStep b sfx st priv) := rfl
    rw [hfold, ih, sweepPrivStep_privileges]
    cases hg : goHasSuffix priv.name sfx <;> cases ho : b.deletePrivilegeOk priv.name <;>
      simp only [Bool.false_and, Bool.and_false, Bool.true_and, Bool.and_true,
        Bool.false_eq_true, if_false, if_true]
    case false.false =>
      apply List.filter_congr
      intro x hx
      by_cases hxname : x.name = priv.name <;>
        simp [hxname, hg, ho, List.contains_cons]
    case false.true =>
      apply List.filter_congr
      intro x hx
      by_cases hxname : x.name = priv.name <;>
        simp [hxname, hg, ho, List.contains_cons]
    case true.false =>
      apply List.filter_congr
      intro x hx
      by_cases hxname : x.name = priv.name <;>
        simp [hxname, hg, ho, List.contains_cons]
    case true.true =>
      rw [List.filter_filter]
      apply List.filter_congr
      intro x hx
      by_cases hxname : x.name = priv.name <;>
        simp [hxname, hg, ho, List.contains_cons]


lemma find?_update_user (users : List NexusUser) (uname : String) (u u' : NexusUser)
    (hu : users.find? (fun v => v.userID == uname) = some u) (hid : u'.userID = uname) :
    (users.map (fun v => if v.userID == u'.userID then u' else v)).find?
      (fun v => v.userID == uname) = some u' := by
  induction users with
  | nil => cases hu
  | cons v rest ih =>
    by_cases hv : v.userID = uname
    · simp [List.find?, hv, hid]
    · have hvf : (v.userID == uname) = false := by simp [hv]
      have hvu : (v.userID == u'.userID) = false := by simp [hid, hv]
      have hu' : rest.find? (fun w => w.userID == uname) = some u := by
        rw [List.find?, hvf] at hu
        simpa using hu
      simp only [List.map_cons, hvu, Bool.false_eq_true, if_false, List.find?, hvf]
      exact ih hu' 

lemma getUser_updateUser (st : NexusState) (uname : String) (u u' : NexusUser)
    (hu : getUser st uname = some u) (hid : u'.userID = uname) :
    getUser (updateUser st u') uname = some u' :=
  find?_update_user st.users uname u u' hu hid

lemma forceDeleteRoleBestEffort_preserves (b : ClientBehavior) (st : NexusState) (nm : String) :
    (forceDeleteRoleBestEffort b st nm).repositories = st.repositories ∧
    (forceDeleteRoleBestEffort b st nm).privileges = st.privileges ∧
    (forceDeleteRoleBestEffort b st nm).users = st.users := by
  unfold forceDeleteRoleBestEffort forceDeleteRole deleteRoleState
  by_cases h : b.deleteRoleOk nm = true <;> simp [h]


/-- C5: in offboarding mode (shared delete with non-empty appID), over any
repository and privilege lists held by the client, exactly the repositories
and privileges whose names end with "-release-{appID}" (and whose individual
delete calls succeed) are deleted and all non-matching ones are untouched —
with all delete calls succeeding, exactly the matching ones; an individual
deletion failure does not prevent the remaining deletions; the user's roles
are reset to exactly baseRoles and the status is set to disabled. -/
theorem offboarding_deletion (opc : OperationConfig) (b : ClientBehavior) (st : NexusState)
    (u : NexusUser)
    (hshared : opc.shared = true) (happ : opc.appID ≠ "")
    (hgu : b.getUserOk = true) (hu : getUser st opc.ldapUsername = some u)
    (huu : b.updateUserOk = true)
    (hlr : b.listRepositoriesOk = true) (hlp : b.listPrivilegesOk = true) :
    ∃ st', deletionRun opc b st = .ok (st', some "offboarding") ∧
      st'.repositories = st.repositories.filter
        (fun r => !(goHasSuffix r.name ("-release-" ++ opc.appID) && b.deleteRepositoryOk r.name)) ∧
      ((∀ nm, b.deleteRepositoryOk nm = true) →
        st'.repositories = st.repositories.filter
          (fun r => !goHasSuffix r.name ("-release-" ++ opc.appID))) ∧
      st'.privileges = st.privileges.filter
        (fun p => !(goHasSuffix p.name ("-release-" ++ opc.appID) && b.deletePrivilegeOk p.name)) ∧
      ((∀ nm, b.deletePrivilegeOk nm = true) →
        st'.privileges = st.privileges.filter
          (fun p => !goHasSuffix p.name ("-release-" ++ opc.appID))) ∧
      getUser st' opc.ldapUsername =
        some { u with roles := opc.baseRoles, status := "disabled" } := by
  have hcond : (opc.shared && opc.appID != "") = true := by simp [hshared, happ]
  have hu0 : st.users.find? (fun v => v.userID == opc.ldapUsername) = some u := hu
  have hid0 : u.userID = opc.ldapUsername := by
    have h := List.find?_some hu0
    simpa using h
  set u' : NexusUser := { u with roles := opc.baseRoles, status := "disabled" } with hu'def
  have hd : disableUserAndResetRoles opc b st = .ok (updateUser st u') := by
    simp [disableUserAndResetRoles, hgu, hu, huu, hu'def]
  set sfx := "-release-" ++ opc.appID with hsfx
  set st1 := updateUser st u' with hst1
  set st2 := forceDeleteRoleBestEffort b st1 opc.ldapUsername with hst2
  set st3 := sweepRepositories b sfx st2.repositories st2 with hst3
  set st4 := sweepPrivileges b sfx st3.privileges st3 with hst4
  have hrun : deletionRun opc b st = .ok (st4, some "offboarding") := by
    rw [hst4, hst3, hst2, hst1]
    simp [deletionRun, hcond, hd, hlr, hlp, hsfx]
  have h2r : st2.repositories = st.repositories := by
    rw [hst2]
    exact ((forceDeleteRoleBestEffort_preserves b st1 opc.ldapUsername).1).trans rfl
  have h2p : st2.privileges = st.privileges := by
    rw [hst2]
    exact ((forceDeleteRoleBestEffort_preserves b st1 opc.ldapUsername).2.1).trans rfl
  have h2u : st2.users = st1.users :=
    (forceDeleteRoleBestEffort_preserves b st1 opc.ldapUsername).2.2
  have h3r : st3.repositories = st.repositories.filter
      (fun x => !(goHasSuffix x.name sfx && b.deleteRepositoryOk x.name)) := by
    rw [hst3, sweepRepositories_repositories, h2r]
    apply List.filter_congr
    intro x hx
    have hc : ((st.repositories.map (fun r => r.name)).contains x.name) = true :=
      List.elem_iff.mpr (List.mem_map.mpr ⟨x, hx, rfl⟩)
    show (!((st.repositories.map (fun r => r.name)).contains x.name &&
        (goHasSuffix x.name sfx && b.deleteRepositoryOk x.name))) =
      (!(goHasSuffix x.name sfx && b.deleteRepositoryOk x.name))
    rw [hc, Bool.true_and]
  have h3p : st3.privileges = st.privileges := by
    rw [hst3]
    exact ((sweepRepositories_preserves b sfx st2.repositories st2).1).trans h2p
  have h3u : st3.users = st1.users := by
    rw [hst3]
    exact ((sweepRepositories_preserves b sfx st2.repositories st2).2.1).trans h2u
  have h4r : st4.repositories = st.repositories.filter
      (fun x => !(goHasSuffix x.name sfx && b.deleteRepositoryOk x.name)) := by
    rw [hst4]
    exact ((sweepPrivileges_preserves b sfx st3.privileges st3).1).trans h3r
  have h4p : st4.privileges = st.privileges.filter
      (fun x => !(goHasSuffix x.name sfx && b.deletePrivilegeOk x.name)) := by
    rw [hst4, sweepPrivileges_privileges, h3p]
    apply List.filter_congr
    intro x hx
    have hc : ((st.privileges.map (fun p => p.name)).contains x.name) = true :=
      List.elem_iff.mpr (List.mem_map.mpr ⟨x, hx, rfl⟩)
    show (!((st.privileges.map (fun p => p.name)).contains x.name &&
        (goHasSuffix x.name sfx && b.deletePrivilegeOk x.name))) =
      (!(goHasSuffix x.name sfx && b.deletePrivilegeOk x.name))
    rw [hc, Bool.true_and]
  have h4u : st4.users = st1.users := by
    rw [hst4]
    exact ((sweepPrivileges_preserves b sfx st3.privileges st3).2.1).trans h3u
  have hguser : getUser st4 opc.ldapUsername = some u' := by
    have : getUser st4 opc.ldapUsername = getUser st1 opc.ldapUsername := by
      unfold getUser
      rw [h4u]
    rw [this, hst1]
    exact getUser_updateUser st opc.ldapUsername u u' hu hid0
  refine ⟨st4, hrun, h4r, ?_, h4p, ?_, hguser⟩
  · intro hall
    rw [h4r]
    apply List.filter_congr
    intro x hx
    show (!(goHasSuffix x.name sfx && b.deleteRepositoryOk x.name)) =
      (!goHasSuffix x.name sfx)
    rw [hall x.name, Bool.and_true]
  · intro hall
    rw [h4p]
    apply List.filter_congr
    intro x hx
    show (!(goHasSuffix x.name sfx && b.deletePrivilegeOk x.name)) =
      (!goHasSuffix x.name sfx)
    rw [hall x.name, Bool.and_true]


/-- Offboarding operation config for the witness (shared delete, appID
"app-9"). -/
def c5OpConfig : OperationConfig :=
  { action := "delete", ldapUsername := "offboard-user", organizationID := "org-1",
    remoteURL := "", extraRoles := ["extra-role"], baseRoles := ["base-role"],
    repositoryName := "", privilegeName := "", roleName := "offboard-user",
    packageManager := "", shared := true, appID := "app-9" }

/-- All-success client behaviour for the witness. -/
def allOkBehavior : ClientBehavior :=
  { getUserOk := true, updateUserOk := true, getRoleOk := true,
    deleteRoleOk := fun _ => true, deleteRepositoryOk := fun _ => true,
    deletePrivilegeOk := fun _ => true, listRepositoriesOk := true,
    listPrivilegesOk := true, getRepositoryErr := fun _ => false,
    getPrivilegeErr := fun _ => false, createRepositoryOk := true,
    createPrivilegeOk := true }

/-- The stored user for the offboarding witness. -/
def c5User : NexusUser :=
  { userID := "offboard-user", firstName := "", lastName := "", emailAddress := "",
    source := "LDAP", status := "active", roles := ["offboard-user", "base-role"] }

/-- Client state for the offboarding witness: two repositories matching
"-release-app-9", one not; same for privileges. -/
def c5State : NexusState :=
  { repositories :=
      [{ name := "npm-release-app-9", format := "npm", type := "proxy", url := "", online := true },
       { name := "other-repo", format := "npm", type := "proxy", url := "", online := true },
       { name := "maven-release-app-9", format := "maven2", type := "proxy", url := "", online := true }]
    privileges :=
      [{ name := "npm-release-app-9", description := "", actions := [], format := "npm",
         repository := "npm-release-app-9", type := "repository-admin" },
       { name := "other-priv", description := "", actions := [], format := "",
         repository := "", type := "" },
       { name := "maven-release-app-9", description := "", actions := [], format := "maven2",
         repository := "maven-release-app-9", type := "repository-admin" }]
    roles := [{ id := "offboard-user", name := "offboard-user", description := "",
                privileges := ["npm-release-app-9"], roles := [] }]
    users := [c5User] }

/-- Witness for the offboarding theorem at the concrete scenario. -/
theorem offboarding_deletion_witness :
    (c5OpConfig.shared = true ∧ c5OpConfig.appID ≠ "" ∧
     allOkBehavior.getUserOk = true ∧
     getUser c5State c5OpConfig.ldapUsername = some c5User ∧
     allOkBehavior.updateUserOk = true ∧
     allOkBehavior.listRepositoriesOk = true ∧ allOkBehavior.listPrivilegesOk = true) ∧
    (∃ st', deletionRun c5OpConfig allOkBehavior c5State = .ok (st', some "offboarding") ∧
      st'.repositories = c5State.repositories.filter
        (fun r => !(goHasSuffix r.name ("-release-" ++ c5OpConfig.appID) &&
          allOkBehavior.deleteRepositoryOk r.name)) ∧
      ((∀ nm, allOkBehavior.deleteRepositoryOk nm = true) →
        st'.repositories = c5State.repositories.filter
          (fun r => !goHasSuffix r.name ("-release-" ++ c5OpConfig.appID))) ∧
      st'.privileges = c5State.privileges.filter
        (fun p => !(goHasSuffix p.name ("-release-" ++ c5OpConfig.appID) &&
          allOkBehavior.deletePrivilegeOk p.name)) ∧
      ((∀ nm, allOkBehavior.deletePrivilegeOk nm = true) →
        st'.privileges = c5State.privileges.filter
          (fun p => !goHasSuffix p.name ("-release-" ++ c5OpConfig.appID))) ∧
      getUser st' c5OpConfig.ldapUsername =
        some { c5User with roles := c5OpConfig.baseRoles, status := "disabled" }) :=
  ⟨⟨rfl, by decide, rfl, rfl, rfl, rfl, rfl⟩,
    offboarding_deletion c5OpConfig allOkBehavior c5State c5User
      rfl (by decide) rfl rfl rfl rfl rfl⟩


/-- Abbreviation: a user record with its role list replaced. -/
def withRoles (u : NexusUser) (rs : List String) : NexusUser :=
  { u with roles := rs }

/-- Abbreviation: the Role Decision Engine applied to a remaining-role list
(deletion.go lines 191-193). -/
def engineFinalRoles (baseRoles extraRoles afterRemoval : List String) : List String :=
  decideFinalRoles (setAfterRemovalRoles (NewRoleDecisionEngine baseRoles extraRoles) afterRemoval)

/-- C9: in standard-mode deletion, CleanupRole deletes the role only when it
exists with an empty privilege list (absent role is a no-op, a role with
privileges is skipped), and CleanupUserRoles removes the target role from the
user's list only when the role does not exist or has zero privileges, then
applies the Role Decision Engine to the remaining list and persists the
result; an absent user is a warn-and-no-op. -/
theorem standard_cleanup (opc : OperationConfig) (b : ClientBehavior) (st : NexusState)
    (hgr : b.getRoleOk = true) (hgu : b.getUserOk = true) (huu : b.updateUserOk = true)
    (hdr : b.deleteRoleOk opc.roleName = true) (hrn : opc.roleName ≠ "") :
    (getRole st opc.roleName = none → cleanupRole opc b st = .ok st) ∧
    (∀ role, getRole st opc.roleName = some role → role.privileges ≠ [] →
      cleanupRole opc b st = .ok st) ∧
    (∀ role, getRole st opc.roleName = some role → role.privileges = [] →
      cleanupRole opc b st = .ok (deleteRoleState st opc.roleName)) ∧
    (getUser st opc.ldapUsername = none → cleanupUserRoles opc b st = .ok st) ∧
    (∀ user, getUser st opc.ldapUsername = some user → getRole st opc.roleName = none →
      cleanupUserRoles opc b st = .ok (updateUser st (withRoles user
        (engineFinalRoles opc.baseRoles opc.extraRoles
          (removeFirstRole user.roles opc.roleName))))) ∧
    (∀ user role, getUser st opc.ldapUsername = some user →
      getRole st opc.roleName = some role → role.privileges = [] →
      cleanupUserRoles opc b st = .ok (updateUser st (withRoles user
        (engineFinalRoles opc.baseRoles opc.extraRoles
          (removeFirstRole user.roles opc.roleName))))) ∧
    (∀ user role, getUser st opc.ldapUsername = some user →
      getRole st opc.roleName = some role → role.privileges ≠ [] →
      cleanupUserRoles opc b st = .ok (updateUser st (withRoles user
        (engineFinalRoles opc.baseRoles opc.extraRoles user.roles)))) := by
  refine ⟨?_, ?_, ?_, ?_, ?_, ?_, ?_⟩
  · intro h
    simp [cleanupRole, hgr, h]
  · intro role hrole hpriv
    have : ¬(role.privileges.length = 0) := by
      simpa [List.length_eq_zero] using hpriv
    simp [cleanupRole, hgr, hrole, this]
  · intro role hrole hpriv
    simp [cleanupRole, hgr, hrole, hpriv, hdr]
  · intro h
    simp [cleanupUserRoles, hgu, h]
  · intro user huser hrole
    simp [cleanupUserRoles, hgu, huser, hgr, hrole, hrn, huu, withRoles, engineFinalRoles]
  · intro user role huser hrole hpriv
    simp [cleanupUserRoles, hgu, huser, hgr, hrole, hpriv, hrn, huu, withRoles, engineFinalRoles]
  · intro user role huser hrole hpriv
    have h0 : ¬(role.privileges.length = 0) := by
      simpa [List.length_eq_zero] using hpriv
    have hgt : (role.privileges.length > 0) := by omega
    simp [cleanupUserRoles, hgu, huser, hgr, hrole, hrn, huu, hgt, withRoles, engineFinalRoles]


/-- Standard-mode delete config for the cleanup witness. -/
def c9OpConfig : OperationConfig :=
  { action := "delete", ldapUsername := "app-user", organizationID := "org-1",
    remoteURL := "", extraRoles := ["extra-role"], baseRoles := ["base-role"],
    repositoryName := "npm-release-app1", privilegeName := "npm-release-app1",
    roleName := "app-user", packageManager := "npm", shared := false, appID := "app1" }

/-- The stored user for the cleanup witness. -/
def c9User : NexusUser :=
  { userID := "app-user", firstName := "", lastName := "", emailAddress := "",
    source := "LDAP", status := "active",
    roles := ["app-user", "base-role", "extra-role"] }

/-- Client state for the cleanup witness: the target role exists and is
empty of privileges; the user exists. -/
def c9State : NexusState :=
  { repositories := []
    privileges := []
    roles := [{ id := "app-user", name := "app-user", description := "",
                privileges := [], roles := [] }]
    users := [c9User] }

/-- Witness for the standard cleanup theorem at a concrete state. -/
theorem standard_cleanup_witness :
    (allOkBehavior.getRoleOk = true ∧ allOkBehavior.getUserOk = true ∧
     allOkBehavior.updateUserOk = true ∧
     allOkBehavior.deleteRoleOk c9OpConfig.roleName = true ∧ c9OpConfig.roleName ≠ "") ∧
    ((getRole c9State c9OpConfig.roleName = none →
        cleanupRole c9OpConfig allOkBehavior c9State = .ok c9State) ∧
     (∀ role, getRole c9State c9OpConfig.roleName = some role → role.privileges ≠ [] →
        cleanupRole c9OpConfig allOkBehavior c9State = .ok c9State) ∧
     (∀ role, getRole c9State c9OpConfig.roleName = some role → role.privileges = [] →
        cleanupRole c9OpConfig allOkBehavior c9State =
          .ok (deleteRoleState c9State c9OpConfig.roleName)) ∧
     (getUser c9State c9OpConfig.ldapUsername = none →
        cleanupUserRoles c9OpConfig allOkBehavior c9State = .ok c9State) ∧
     (∀ user, getUser c9State c9OpConfig.ldapUsername = some user →
        getRole c9State c9OpConfig.roleName = none →
        cleanupUserRoles c9OpConfig allOkBehavior c9State =
          .ok (updateUser c9State (withRoles user
            (engineFinalRoles c9OpConfig.baseRoles c9OpConfig.extraRoles
              (removeFirstRole user.roles c9OpConfig.roleName))))) ∧
     (∀ user role, getUser c9State c9OpConfig.ldapUsername = some user →
        getRole c9State c9OpConfig.roleName = some role → role.privileges = [] →
        cleanupUserRoles c9OpConfig allOkBehavior c9State =
          .ok (updateUser c9State (withRoles user
            (engineFinalRoles c9OpConfig.baseRoles c9OpConfig.extraRoles
              (removeFirstRole user.roles c9OpConfig.roleName))))) ∧
     (∀ user role, getUser c9State c9OpConfig.ldapUsername = some user →
        getRole c9State c9OpConfig.roleName = some role → role.privileges ≠ [] →
        cleanupUserRoles c9OpConfig allOkBehavior c9State =
          .ok (updateUser c9State (withRoles user
            (engineFinalRoles c9OpConfig.baseRoles c9OpConfig.extraRoles user.roles))))) :=
  ⟨⟨rfl, rfl, rfl, rfl, by decide⟩,
    standard_cleanup c9OpConfig allOkBehavior c9State rfl rfl rfl rfl (by decide)⟩


/-! ## Creation workflow existence checks (NexusCreator, deletion.go lines
354-398 of the service package) -/

/-- Client GetRepository: an injected call failure, or a 404 error when the
repository is absent — both are plain errors to the caller. -/
def getRepositoryClient (b : ClientBehavior) (st : NexusState) (name : String) :
    Except String NexusRepository :=
  if b.getRepositoryErr name then .error ("get repository '" ++ name ++ "' failed")
  else
    match st.repositories.find? (fun r => r.name == name) with
    | some r => .ok r
    | none => .error ("repository '" ++ name ++ "' not found (404)")

/-- Client GetPrivilege, same shape. -/
def getPrivilegeClient (b : ClientBehavior) (st : NexusState) (name : String) :
    Except String NexusPrivilege :=
  if b.getPrivilegeErr name then .error ("get privilege '" ++ name ++ "' failed")
  else
    match st.privileges.find? (fun p => p.name == name) with
    | some p => .ok p
    | none => .error ("privilege '" ++ name ++ "' not found (404)")

/-- State effect of CreateProxyRepository: record the created repository (the
wire-level payload construction belongs to the client collaborator). -/
def createProxyRepositoryClient (b : ClientBehavior) (st : NexusState)
    (opc : OperationConfig) : Except String NexusState :=
  if b.createRepositoryOk then
    .ok { st with repositories := st.repositories ++
      [{ name := opc.repositoryName, format := opc.packageManager, type := "proxy",
         url := opc.remoteURL, online := true }] }
  else .error "create repository call failed"

/-- State effect of CreatePrivilege, with the fixed action set. -/
def createPrivilegeClient (b : ClientBehavior) (st : NexusState)
    (opc : OperationConfig) : Except String NexusState :=
  if b.createPrivilegeOk then
    .ok { st with privileges := st.privileges ++
      [{ name := opc.privilegeName, description := "",
         actions := ["BROWSE", "READ", "EDIT", "ADD", "DELETE"],
         format := opc.packageManager, repository := opc.repositoryName,
         type := "repository-admin" }] }
  else .error "create privilege call failed"

/-- NexusCreator.CreateRepository (lines 355-375): a nil lookup error
short-circuits as an idempotent skip; ANY lookup error — not only NotFound —
falls through to the creation attempt.  The Bool records whether the create
call was issued. -/
def createRepository (opc : OperationConfig) (b : ClientBehavior) (st : NexusState) :
    Except String NexusState × Bool :=
  match getRepositoryClient b st opc.repositoryName with
  | .ok _ => (.ok st, false)
  | .error _ =>
    match createProxyRepositoryClient b st opc with
    | .ok st' => (.ok st', true)
    | .error e =>
      (.error ("create proxy repository '" ++ opc.repositoryName ++ "': " ++ e), true)

/-- NexusCreator.CreatePrivilege (lines 378-398), same shape. -/
def createPrivilege (opc : OperationConfig) (b : ClientBehavior) (st : NexusState) :
    Except String NexusState × Bool :=
  match getPrivilegeClient b st opc.privilegeName with
  | .ok _ => (.ok st, false)
  | .error _ =>
    match createPrivilegeClient b st opc with
    | .ok st' => (.ok st', true)
    | .error e =>
      (.error ("create privilege '" ++ opc.privilegeName ++ "': " ++ e), true)

/-- C10: in CreateRepository and CreatePrivilege, any lookup error (not only
NotFound) is treated as "resource absent" and leads to a creation attempt; a
lookup failure alone never fails the step — the step fails exactly when the
subsequent create call fails — and a successful lookup returns success with
no create call issued. -/
theorem create_lookup_error_tolerated (opc : OperationConfig) (b : ClientBehavior)
    (st : NexusState) :
    (∀ repo, getRepositoryClient b st opc.repositoryName = .ok repo →
      createRepository opc b st = (.ok st, false)) ∧
    (∀ e, getRepositoryClient b st opc.repositoryName = .error e →
      (createRepository opc b st).2 = true ∧
      (b.createRepositoryOk = true → ∃ st', (createRepository opc b st).1 = .ok st') ∧
      (b.createRepositoryOk = false → ∃ msg, (createRepository opc b st).1 = .error msg)) ∧
    (∀ priv, getPrivilegeClient b st opc.privilegeName = .ok priv →
      createPrivilege opc b st = (.ok st, false)) ∧
    (∀ e, getPrivilegeClient b st opc.privilegeName = .error e →
      (createPrivilege opc b st).2 = true ∧
      (b.createPrivilegeOk = true → ∃ st', (createPrivilege opc b st).1 = .ok st') ∧
      (b.createPrivilegeOk = false → ∃ msg, (createPrivilege opc b st).1 = .error msg)) := by
  refine ⟨?_, ?_, ?_, ?_⟩
  · intro repo h
    simp [createRepository, h]
  · intro e h
    refine ⟨?_, ?_, ?_⟩
    · simp [createRepository, h, createProxyRepositoryClient]
      cases hc : b.createRepositoryOk <;> simp
    · intro hc
      refine ⟨{ st with repositories := st.repositories ++
          [{ name := opc.repositoryName, format := opc.packageManager, type := "proxy",
             url := opc.remoteURL, online := true }] }, ?_⟩
      simp [createRepository, h, createProxyRepositoryClient, hc]
    · intro hc
      refine ⟨"create proxy repository '" ++ opc.repositoryName ++ "': " ++
        "create repository call failed", ?_⟩
      simp [createRepository, h, createProxyRepositoryClient, hc]
  · intro priv h
    simp [createPrivilege, h]
  · intro e h
    refine ⟨?_, ?_, ?_⟩
    · simp [createPrivilege, h, createPrivilegeClient]
      cases hc : b.createPrivilegeOk <;> simp
    · intro hc
      refine ⟨{ st with privileges := st.privileges ++
          [{ name := opc.privilegeName, description := "",
             actions := ["BROWSE", "READ", "EDIT", "ADD", "DELETE"],
             format := opc.packageManager, repository := opc.repositoryName,
             type := "repository-admin" }] }, ?_⟩
      simp [createPrivilege, h, createPrivilegeClient, hc]
    · intro hc
      refine ⟨"create privilege '" ++ opc.privilegeName ++ "': " ++
        "create privilege call failed", ?_⟩
      simp [createPrivilege, h, createPrivilegeClient, hc]


/-- Behaviour with injected (non-404) lookup failures but working creates. -/
def c10Behavior : ClientBehavior :=
  { allOkBehavior with getRepositoryErr := fun _ => true, getPrivilegeErr := fun _ => true }

/-- State where the repository and privilege actually exist, showing that a
failing lookup is treated as absence regardless. -/
def c10State : NexusState :=
  { repositories :=
      [{ name := "npm-release-app1", format := "npm", type := "proxy", url := "", online := true }]
    privileges :=
      [{ name := "npm-release-app1", description := "", actions := [], format := "npm",
         repository := "npm-release-app1", type := "repository-admin" }]
    roles := []
    users := [] }

/-- Witness for the lookup-tolerance theorem at a concrete failing lookup. -/
theorem create_lookup_error_tolerated_witness :
    (getRepositoryClient c10Behavior c10State c9OpConfig.repositoryName =
      .error "get repository 'npm-release-app1' failed") ∧
    ((createRepository c9OpConfig c10Behavior c10State).2 = true ∧
      (c10Behavior.createRepositoryOk = true →
        ∃ st', (createRepository c9OpConfig c10Behavior c10State).1 = .ok st') ∧
      (c10Behavior.createRepositoryOk = false →
        ∃ msg, (createRepository c9OpConfig c10Behavior c10State).1 = .error msg)) ∧
    (getPrivilegeClient c10Behavior c10State c9OpConfig.privilegeName =
      .error "get privilege 'npm-release-app1' failed") ∧
    ((createPrivilege c9OpConfig c10Behavior c10State).2 = true ∧
      (c10Behavior.createPrivilegeOk = true →
        ∃ st', (createPrivilege c9OpConfig c10Behavior c10State).1 = .ok st') ∧
      (c10Behavior.createPrivilegeOk = false →
        ∃ msg, (createPrivilege c9OpConfig c10Behavior c10State).1 = .error msg)) :=
  ⟨rfl,
    (create_lookup_error_tolerated c9OpConfig c10Behavior c10State).2.1 _ rfl,
    rfl,
    (create_lookup_error_tolerated c9OpConfig c10Behavior c10State).2.2.2 _ rfl⟩

end SRA
